import Mathlib

/-!
Verification of `crypto/hash/hmac_ossl.c` (libsrtp HMAC-SHA1 adapter)

Shallow embedding of the HMAC-SHA1 authentication-function adapter from
`src/crypto/hash/hmac_ossl.c`.  Bytes are `Nat` values below 256, byte
buffers are `List Nat`, and the C `int` parameters (`key_len`, `out_len`,
`tag_len`) are `Int` so that the signed/unsigned comparison behaviour of
the C code is preserved.

The adapter delegates all cryptography to the OpenSSL HMAC engine
(`HMAC_CTX_new`, `HMAC_Init_ex`, `HMAC_Update`, `HMAC_Final`,
`HMAC_CTX_free`).  That engine is an external collaborator of the
repository; it is modelled here by an executable HMAC-SHA1 built from a
full SHA-1 implementation (FIPS 180), with the engine state captured as
the bound key together with the bytes absorbed so far.
-/

/-! SHA-1, the native hash of the engine. -/

/-- Truncate to a 32-bit word. -/
def w32 (n : Nat) : Nat := n % 4294967296

/-- Rotate a 32-bit word left by `s` bits (`0 < s < 32`). -/
def rotl (s x : Nat) : Nat := ((x <<< s) % 4294967296) ||| (x >>> (32 - s))

/-- Big-endian packing of bytes into 32-bit words (complete 4-byte groups). -/
def toWords : List Nat → List Nat
  | b0 :: b1 :: b2 :: b3 :: rest =>
      ((b0 <<< 24) ||| (b1 <<< 16) ||| (b2 <<< 8) ||| b3) :: toWords rest
  | _ => []

/-- Big-endian bytes of a 32-bit word. -/
def wordBytes (w : Nat) : List Nat :=
  [(w >>> 24) % 256, (w >>> 16) % 256, (w >>> 8) % 256, w % 256]

/-- Extend the 16 block words (given reversed in `acc`) by `n` further
schedule words `W[t] = rotl 1 (W[t-3] ^^^ W[t-8] ^^^ W[t-14] ^^^ W[t-16])`,
returning the whole schedule in order. -/
def extendW : Nat → List Nat → List Nat
  | 0, acc => acc.reverse
  | n + 1, acc =>
      extendW n
        ((rotl 1 ((acc.getD 2 0) ^^^ (acc.getD 7 0) ^^^
                  (acc.getD 13 0) ^^^ (acc.getD 15 0))) :: acc)

/-- SHA-1 round function for round `t`. -/
def sha1F (t b c d : Nat) : Nat :=
  if t < 20 then (b &&& c) ||| ((b ^^^ 4294967295) &&& d)
  else if t < 40 then b ^^^ c ^^^ d
  else if t < 60 then (b &&& c) ||| (b &&& d) ||| (c &&& d)
  else b ^^^ c ^^^ d

/-- SHA-1 round constant for round `t`. -/
def sha1K (t : Nat) : Nat :=
  if t < 20 then 0x5A827999
  else if t < 40 then 0x6ED9EBA1
  else if t < 60 then 0x8F1BBCDC
  else 0xCA62C1D6

/-- Run the 80 SHA-1 rounds (one per schedule word) over the state. -/
def sha1Rounds : Nat → List Nat → Nat × Nat × Nat × Nat × Nat → Nat × Nat × Nat × Nat × Nat
  | _, [], st => st
  | t, w :: ws, (a, b, c, d, e) =>
      sha1Rounds (t + 1) ws
        (w32 (rotl 5 a + sha1F t b c d + e + sha1K t + w), a, rotl 30 b, c, d)

/-- Compress one 64-byte block into the chaining state. -/
def sha1Compress (h : Nat × Nat × Nat × Nat × Nat) (block : List Nat) :
    Nat × Nat × Nat × Nat × Nat :=
  let st := sha1Rounds 0 (extendW 64 (toWords block).reverse) h
  (w32 (h.1 + st.1), w32 (h.2.1 + st.2.1), w32 (h.2.2.1 + st.2.2.1),
   w32 (h.2.2.2.1 + st.2.2.2.1), w32 (h.2.2.2.2 + st.2.2.2.2))

/-- Merkle–Damgård padding: `0x80`, zeros to 56 mod 64, 64-bit big-endian
bit length. -/
def sha1Pad (msg : List Nat) : List Nat :=
  let bitLen := 8 * msg.length
  msg ++ 0x80 :: List.replicate ((119 - msg.length % 64) % 64) 0 ++
    [(bitLen >>> 56) % 256, (bitLen >>> 48) % 256, (bitLen >>> 40) % 256,
     (bitLen >>> 32) % 256, (bitLen >>> 24) % 256, (bitLen >>> 16) % 256,
     (bitLen >>> 8) % 256, bitLen % 256]

/-- Split `l` into `n` consecutive 64-byte blocks. -/
def takeBlocks : Nat → List Nat → List (List Nat)
  | 0, _ => []
  | n + 1, l => List.take 64 l :: takeBlocks n (List.drop 64 l)

/-- SHA-1 of a byte sequence: 20 digest bytes. -/
def sha1 (msg : List Nat) : List Nat :=
  let p := sha1Pad msg
  let h := (takeBlocks (p.length / 64) p).foldl sha1Compress
    (0x67452301, 0xEFCDAB89, 0x98BADCFE, 0x10325476, 0xC3D2E1F0)
  wordBytes h.1 ++ wordBytes h.2.1 ++ wordBytes h.2.2.1 ++
    wordBytes h.2.2.2.1 ++ wordBytes h.2.2.2.2

/-- HMAC-SHA1 (RFC 2104) with a 64-byte block size. -/
def hmacSha1 (key msg : List Nat) : List Nat :=
  let k0 := if 64 < key.length then sha1 key else key
  let kp := k0 ++ List.replicate (64 - k0.length) 0
  sha1 ((kp.map fun b => b ^^^ 0x5c) ++ sha1 ((kp.map fun b => b ^^^ 0x36) ++ msg))

/-! The OpenSSL engine state, as used by the adapter.

The adapter stores an opaque `HMAC_CTX *`.  Abstractly (spec §6: create;
reset with key; reset with existing key; absorb; finalize; destroy) a
context is the currently bound key, if any, and the bytes absorbed since
the last reset. -/

structure HMAC_CTX where
  key : Option (List Nat)
  msg : List Nat
  deriving DecidableEq, Repr

/-- Engine call `HMAC_CTX_new()`: a fresh, key-less engine handle. -/
def HMAC_CTX_new : HMAC_CTX := ⟨none, []⟩

/-- Engine call `HMAC_Init_ex(ctx, key, len, md, impl)`: with a key, bind it and reset
the running message; with `NULL` key, reset the running message and keep
the bound key.  Returns the engine success flag. -/
def HMAC_Init_ex (c : HMAC_CTX) (key : Option (List Nat)) : Bool × HMAC_CTX :=
  match key with
  | some k => (true, ⟨some k, []⟩)
  | none => (true, ⟨c.key, []⟩)

/-- Engine call `HMAC_Update(ctx, message, len)`: absorb bytes in call order. -/
def HMAC_Update (c : HMAC_CTX) (message : List Nat) : Bool × HMAC_CTX :=
  (true, ⟨c.key, c.msg ++ message⟩)

/-- Engine call `HMAC_Final(ctx, out, &len)`: the HMAC-SHA1 digest of the absorbed
bytes under the bound key, with its length (20); fails when no key was
ever bound. -/
def HMAC_Final (c : HMAC_CTX) : Bool × List Nat × Nat :=
  match c.key with
  | some k => (true, hmacSha1 k c.msg, 20)
  | none => (false, [], 0)

/-! The adapter, `hmac_ossl.c`. -/

/-- The C macro `SHA1_DIGEST_SIZE` (20). -/
def SHA1_DIGEST_SIZE : Int := 20

/-- The `srtp_err_status_t` values this module returns. -/
inductive srtp_err_status_t where
  | srtp_err_status_ok
  | srtp_err_status_alloc_fail
  | srtp_err_status_bad_param
  | srtp_err_status_auth_fail
  deriving DecidableEq, Repr

open srtp_err_status_t

/-- The `srtp_auth_t` record fields the adapter sets. -/
structure srtp_auth_t where
  state : HMAC_CTX
  key_len : Int
  out_len : Int
  prefix_len : Int
  deriving DecidableEq, Repr

/-- Transcription of `srtp_hmac_alloc(a, key_len, out_len)`.  Memory allocation and engine
handle creation are environmental effects, passed in as the success flags
`malloc_ok` (for `srtp_crypto_alloc`) and `ctx_new_ok` (for
`HMAC_CTX_new`); `none` in the second component means `*a` was not set to
an allocated context. -/
def srtp_hmac_alloc (key_len out_len : Int) (malloc_ok ctx_new_ok : Bool) :
    srtp_err_status_t × Option srtp_auth_t :=
  if SHA1_DIGEST_SIZE < out_len then
    (srtp_err_status_bad_param, none)
  else if malloc_ok = false then
    (srtp_err_status_alloc_fail, none)
  else if ctx_new_ok = false then
    (srtp_err_status_alloc_fail, none)
  else
    (srtp_err_status_ok,
     some { state := HMAC_CTX_new, key_len := key_len, out_len := out_len,
            prefix_len := 0 })

/-- The all-zero-bytes `srtp_auth_t` record: integer fields 0, engine
handle pointer `NULL` (no key, no absorbed bytes). -/
def srtp_auth_zero : srtp_auth_t :=
  { state := ⟨none, []⟩, key_len := 0, out_len := 0, prefix_len := 0 }

/-- Transcription of `srtp_hmac_dealloc(a)`: free the engine handle, zeroize the whole
record (`octet_string_set_to_zero(a, sizeof(srtp_auth_t))`), release the
memory.  The second component is the context memory as it stands when
released. -/
def srtp_hmac_dealloc (_a : srtp_auth_t) : srtp_err_status_t × srtp_auth_t :=
  (srtp_err_status_ok, srtp_auth_zero)

/-- Transcription of `srtp_hmac_start(statev)`. -/
def srtp_hmac_start (state : HMAC_CTX) : srtp_err_status_t × HMAC_CTX :=
  match HMAC_Init_ex state none with
  | (false, s) => (srtp_err_status_auth_fail, s)
  | (true, s) => (srtp_err_status_ok, s)

/-- Transcription of `srtp_hmac_init(statev, key, key_len)`: the key is the list of its
`key_len` bytes. -/
def srtp_hmac_init (state : HMAC_CTX) (key : List Nat) : srtp_err_status_t × HMAC_CTX :=
  match HMAC_Init_ex state (some key) with
  | (false, s) => (srtp_err_status_auth_fail, s)
  | (true, s) => (srtp_err_status_ok, s)

/-- Transcription of `srtp_hmac_update(statev, message, msg_octets)`. -/
def srtp_hmac_update (state : HMAC_CTX) (message : List Nat) : srtp_err_status_t × HMAC_CTX :=
  match HMAC_Update state message with
  | (false, s) => (srtp_err_status_auth_fail, s)
  | (true, s) => (srtp_err_status_ok, s)

/-- The C conversion of a signed `int` to `unsigned int` (two's
complement, 32 bits), as performed by the usual arithmetic conversions in
`len < tag_len`. -/
def c_uint_of_int (i : Int) : Nat := (i % 4294967296).toNat

/-- Transcription of `srtp_hmac_compute(statev, message, msg_octets, tag_len, result)`:
guard `tag_len > SHA1_DIGEST_SIZE`, absorb the final segment, finalize,
compare `len < tag_len` (an `unsigned int`/`int` comparison, so `tag_len`
converts to unsigned), then copy `tag_len` leading digest bytes into
`result`.  Returns the status, the engine state, and the `result`
buffer contents. -/
def srtp_hmac_compute (state : HMAC_CTX) (message : List Nat) (tag_len : Int)
    (result : List Nat) : srtp_err_status_t × HMAC_CTX × List Nat :=
  if SHA1_DIGEST_SIZE < tag_len then
    (srtp_err_status_bad_param, state, result)
  else
    match HMAC_Update state message with
    | (false, s1) => (srtp_err_status_auth_fail, s1, result)
    | (true, s1) =>
      match HMAC_Final s1 with
      | (false, _, _) => (srtp_err_status_auth_fail, s1, result)
      | (true, hash_value, len) =>
        if len < c_uint_of_int tag_len then
          (srtp_err_status_auth_fail, s1, result)
        else
          (srtp_err_status_ok, s1,
           List.take tag_len.toNat hash_value ++ List.drop tag_len.toNat result)

/-! Concrete data for the RFC 2202 known-answer vector wired into the
module self-test (`srtp_hmac_test_case_0`). -/

/-- RFC 2202 test 1 key: 20 bytes of `0x0b`. -/
def rfc2202_key : List Nat := List.replicate 20 0x0b

/-- The ASCII bytes of `"Hi There"`. -/
def ascii_hi_there : List Nat := [0x48, 0x69, 0x20, 0x54, 0x68, 0x65, 0x72, 0x65]

/-- RFC 2202 test 1 expected digest `b617318655057264e28bc0b6fb378c8ef146be00`. -/
def rfc2202_tag : List Nat :=
  [0xb6, 0x17, 0x31, 0x86, 0x55, 0x05, 0x72, 0x64, 0xe2, 0x8b,
   0xc0, 0xb6, 0xfb, 0x37, 0x8c, 0x8e, 0xf1, 0x46, 0xbe, 0x00]

/-- The native digest always has 20 bytes. -/
theorem hmacSha1_length (k m : List Nat) : (hmacSha1 k m).length = 20 := rfl

/-- Feed a list of message segments through successive `srtp_hmac_update`
calls. -/
def feedSegments (s : HMAC_CTX) (segs : List (List Nat)) : HMAC_CTX :=
  segs.foldl (fun c seg => (srtp_hmac_update c seg).2) s

/-- Updates only append: after feeding any segment list, the engine holds
the ordered concatenation of the segments after the original bytes. -/
theorem feedSegments_eq (segs : List (List Nat)) (s : HMAC_CTX) :
    feedSegments s segs = ⟨s.key, s.msg ++ segs.flatten⟩ := by
  induction segs generalizing s with
  | nil => simp [feedSegments]
  | cons a l ih =>
      simp only [feedSegments, List.foldl_cons, List.flatten] at *
      rw [show (srtp_hmac_update s a).2 = ⟨s.key, s.msg ++ a⟩ from rfl]
      simp [ih, List.append_assoc]

/-- C1: on a context key-bound via `init` with the 20-byte `0x0b` key,
`start` then `compute` with final segment `"Hi There"` and `tagLength`
20 returns `Ok` and writes exactly the 20 bytes
`b617318655057264e28bc0b6fb378c8ef146be00` into the result buffer. -/
theorem hmac_known_answer_rfc2202 :
    (srtp_hmac_init HMAC_CTX_new rfc2202_key).1 = srtp_err_status_ok ∧
    (srtp_hmac_start (srtp_hmac_init HMAC_CTX_new rfc2202_key).2).1 = srtp_err_status_ok ∧
    srtp_hmac_compute (srtp_hmac_start (srtp_hmac_init HMAC_CTX_new rfc2202_key).2).2
        ascii_hi_there 20 (List.replicate 20 0) =
      (srtp_err_status_ok, ⟨some rfc2202_key, ascii_hi_there⟩, rfc2202_tag) := by
  set_option maxRecDepth 100000 in decide

/-- C8: `deallocate` always returns `Ok`, and the context record is
released as all zero bytes: engine handle destroyed and nulled, all
integer fields zero, no key schedule or hash state left. -/
theorem dealloc_always_ok_zeroizes (a : srtp_auth_t) :
    srtp_hmac_dealloc a = (srtp_err_status_ok, srtp_auth_zero) := rfl

/-- C7: `start` never rebinds the key: on a context whose key was bound
by `init`, `start` succeeds, retains exactly the bound key, resets the
running message to empty, and a subsequent `compute` behaves identically
to one run directly on the freshly key-bound context. -/
theorem start_retains_key (s : HMAC_CTX) (key m : List Nat) (t : Int) (r : List Nat) :
    (srtp_hmac_start (srtp_hmac_init s key).2).1 = srtp_err_status_ok ∧
    (srtp_hmac_start (srtp_hmac_init s key).2).2.key = some key ∧
    (srtp_hmac_start (srtp_hmac_init s key).2).2.msg = [] ∧
    srtp_hmac_compute (srtp_hmac_start (srtp_hmac_init s key).2).2 m t r =
      srtp_hmac_compute (srtp_hmac_init s key).2 m t r :=
  ⟨rfl, rfl, rfl, rfl⟩

/-- C3: determinism under segmentation: feeding the message through any
list of `update` calls and then computing equals feeding its
concatenation through one `update` call and computing; in particular
`update "abc"; update "def"` equals `update "abcdef"`. -/
theorem compute_segmentation_invariant (s : HMAC_CTX) (segs : List (List Nat))
    (m : List Nat) (t : Int) (r : List Nat) :
    srtp_hmac_compute (feedSegments s segs) m t r =
      srtp_hmac_compute (srtp_hmac_update s segs.flatten).2 m t r := by
  rw [feedSegments_eq]
  rfl

/-- C4: for every context state, `compute` with `tagLength` > 20 returns
`BadParameter` with the engine state not advanced and the result buffer
untouched. -/
theorem compute_tag_too_long (s : HMAC_CTX) (m : List Nat) (t : Int) (r : List Nat)
    (h : 20 < t) :
    srtp_hmac_compute s m t r = (srtp_err_status_bad_param, s, r) := by
  simp [srtp_hmac_compute, SHA1_DIGEST_SIZE, h]

theorem compute_tag_too_long_witness :
    srtp_hmac_compute ⟨none, []⟩ [1] 21 [7] = (srtp_err_status_bad_param, ⟨none, []⟩, [7]) :=
  compute_tag_too_long _ _ _ _ (by decide)

/-- C5: for every `keyLength` and every `outLength` > 20, `allocate`
returns `BadParameter` and no context is allocated, whatever the
allocation environment does. -/
theorem alloc_out_len_too_long (key_len out_len : Int) (malloc_ok ctx_new_ok : Bool)
    (h : 20 < out_len) :
    srtp_hmac_alloc key_len out_len malloc_ok ctx_new_ok = (srtp_err_status_bad_param, none) := by
  simp [srtp_hmac_alloc, SHA1_DIGEST_SIZE, h]

theorem alloc_out_len_too_long_witness :
    srtp_hmac_alloc 16 21 true true = (srtp_err_status_bad_param, none) :=
  alloc_out_len_too_long _ _ _ _ (by decide)

/-- C6: for every `keyLength` and every `outLength` ≤ 20, `allocate`
(with the allocation environment succeeding) returns `Ok` and a context
whose `key_len` and `out_len` equal the inputs, whose `prefix_len` is 0,
and whose engine handle is fresh and key-less. -/
theorem alloc_ok_fields (key_len out_len : Int) (h : out_len ≤ 20) :
    srtp_hmac_alloc key_len out_len true true =
      (srtp_err_status_ok,
       some { state := ⟨none, []⟩, key_len := key_len, out_len := out_len, prefix_len := 0 }) := by
  simp [srtp_hmac_alloc, SHA1_DIGEST_SIZE, HMAC_CTX_new, not_lt.mpr h]

theorem alloc_ok_fields_witness :
    srtp_hmac_alloc 16 10 true true =
      (srtp_err_status_ok,
       some { state := ⟨none, []⟩, key_len := 16, out_len := 10, prefix_len := 0 }) :=
  alloc_ok_fields _ _ (by decide)

/-- C10: for every `int`-range negative `tagLength`, `compute` does not
return `BadParameter`: the final segment is absorbed and finalization
reached, but the `len < tag_len` comparison converts the negative
`tagLength` to a large unsigned value, so `compute` returns
`AuthenticationFailure` with no bytes written to the result buffer. -/
theorem compute_negative_tag (s : HMAC_CTX) (m : List Nat) (t : Int) (r : List Nat)
    (hlo : -2147483648 ≤ t) (hneg : t < 0) :
    srtp_hmac_compute s m t r = (srtp_err_status_auth_fail, ⟨s.key, s.msg ++ m⟩, r) ∧
    (srtp_hmac_compute s m t r).1 ≠ srtp_err_status_bad_param := by
  have hcmp : 20 < c_uint_of_int t := by
    unfold c_uint_of_int
    omega
  have hguard : ¬ ((20 : Int) < t) := by omega
  rcases hk : s.key with _ | k
  · constructor
    · simp [srtp_hmac_compute, SHA1_DIGEST_SIZE, hguard, HMAC_Update, HMAC_Final, hk]
    · simp [srtp_hmac_compute, SHA1_DIGEST_SIZE, hguard, HMAC_Update, HMAC_Final, hk]
  · constructor
    · simp [srtp_hmac_compute, SHA1_DIGEST_SIZE, hguard, HMAC_Update, HMAC_Final, hk, hcmp]
    · simp [srtp_hmac_compute, SHA1_DIGEST_SIZE, hguard, HMAC_Update, HMAC_Final, hk, hcmp]

theorem compute_negative_tag_witness :
    srtp_hmac_compute ⟨some [], []⟩ [] (-1) [] =
      (srtp_err_status_auth_fail, ⟨some [], []⟩, []) ∧
    (srtp_hmac_compute ⟨some [], []⟩ [] (-1) []).1 ≠ srtp_err_status_bad_param :=
  compute_negative_tag ⟨some [], []⟩ [] (-1) [] (by decide) (by decide)

/-- C2: truncation law: for a key-bound context and any `tagLength` `t`
with 0 ≤ `t` ≤ 20, `compute` with `t` and `compute` with 20 over the same
state and final segment both succeed, and the `t` result bytes of the
former are the first `t` bytes of the latter's result. -/
theorem compute_truncation (s : HMAC_CTX) (k m : List Nat) (t : Int) (rt r20 : List Nat)
    (hk : s.key = some k) (h0 : 0 ≤ t) (h20 : t ≤ 20) :
    (srtp_hmac_compute s m t rt).1 = srtp_err_status_ok ∧
    (srtp_hmac_compute s m 20 r20).1 = srtp_err_status_ok ∧
    List.take t.toNat (srtp_hmac_compute s m t rt).2.2 =
      List.take t.toNat (srtp_hmac_compute s m 20 r20).2.2 := by
  have hguard : ¬ ((20 : Int) < t) := by omega
  have hcmp : ¬ (20 < c_uint_of_int t) := by
    unfold c_uint_of_int
    omega
  have hcmp20 : ¬ (20 < c_uint_of_int 20) := by decide
  have hlen : (hmacSha1 k (s.msg ++ m)).length = 20 := hmacSha1_length _ _
  have htn : t.toNat ≤ 20 := by omega
  have e1 : srtp_hmac_compute s m t rt =
      (srtp_err_status_ok, ⟨some k, s.msg ++ m⟩,
       List.take t.toNat (hmacSha1 k (s.msg ++ m)) ++ List.drop t.toNat rt) := by
    simp [srtp_hmac_compute, SHA1_DIGEST_SIZE, hguard, HMAC_Update, HMAC_Final, hk, hcmp]
  have e2 : srtp_hmac_compute s m 20 r20 =
      (srtp_err_status_ok, ⟨some k, s.msg ++ m⟩,
       hmacSha1 k (s.msg ++ m) ++ List.drop 20 r20) := by
    simp [srtp_hmac_compute, SHA1_DIGEST_SIZE, HMAC_Update, HMAC_Final, hk, hcmp20]
    exact le_of_eq hlen
  refine ⟨by rw [e1], by rw [e2], ?_⟩
  rw [e1, e2]
  simp only
  rw [List.take_append_of_le_length (by rw [List.length_take, hlen]; omega),
      List.take_append_of_le_length (by rw [hlen]; exact htn),
      List.take_take, min_self]

theorem compute_truncation_witness :
    (srtp_hmac_compute ⟨some [7], []⟩ [1, 2] 5 []).1 = srtp_err_status_ok ∧
    (srtp_hmac_compute ⟨some [7], []⟩ [1, 2] 20 []).1 = srtp_err_status_ok ∧
    List.take (Int.toNat 5) (srtp_hmac_compute ⟨some [7], []⟩ [1, 2] 5 []).2.2 =
      List.take (Int.toNat 5) (srtp_hmac_compute ⟨some [7], []⟩ [1, 2] 20 []).2.2 :=
  compute_truncation ⟨some [7], []⟩ [7] [1, 2] 5 [] [] rfl (by decide) (by decide)

/-- C9: output-buffer frame: on any non-`Ok` status the result buffer is
returned entirely unchanged; on `Ok` with a bound key the buffer holds
exactly the first `tagLength` native digest bytes followed by the
untouched original bytes from index `tagLength` on. -/
theorem compute_frame (s : HMAC_CTX) (m : List Nat) (t : Int) (r : List Nat) :
    ((srtp_hmac_compute s m t r).1 ≠ srtp_err_status_ok →
      (srtp_hmac_compute s m t r).2.2 = r) ∧
    (∀ k, s.key = some k → (srtp_hmac_compute s m t r).1 = srtp_err_status_ok →
      (srtp_hmac_compute s m t r).2.2 =
        List.take t.toNat (hmacSha1 k (s.msg ++ m)) ++ List.drop t.toNat r ∧
      List.drop t.toNat (srtp_hmac_compute s m t r).2.2 = List.drop t.toNat r) := by
  by_cases hguard : (20 : Int) < t
  · have e : srtp_hmac_compute s m t r = (srtp_err_status_bad_param, s, r) := by
      simp [srtp_hmac_compute, SHA1_DIGEST_SIZE, hguard]
    rw [e]
    exact ⟨fun _ => rfl, fun k _ hok => by simp at hok⟩
  · rcases hks : s.key with _ | k0
    · have e : srtp_hmac_compute s m t r =
          (srtp_err_status_auth_fail, ⟨s.key, s.msg ++ m⟩, r) := by
        simp [srtp_hmac_compute, SHA1_DIGEST_SIZE, hguard, HMAC_Update, HMAC_Final, hks]
      rw [e]
      exact ⟨fun _ => rfl, fun k hk _ => Option.noConfusion hk⟩
    · by_cases hcmp : 20 < c_uint_of_int t
      · have e : srtp_hmac_compute s m t r =
            (srtp_err_status_auth_fail, ⟨s.key, s.msg ++ m⟩, r) := by
          simp [srtp_hmac_compute, SHA1_DIGEST_SIZE, hguard, HMAC_Update, HMAC_Final, hks, hcmp]
        rw [e]
        exact ⟨fun _ => rfl, fun k _ hok => by simp at hok⟩
      · have htn : t.toNat ≤ 20 := by omega
        have hlen : (List.take t.toNat (hmacSha1 k0 (s.msg ++ m))).length = t.toNat := by
          rw [List.length_take, hmacSha1_length]
          omega
        have e : srtp_hmac_compute s m t r =
            (srtp_err_status_ok, ⟨some k0, s.msg ++ m⟩,
             List.take t.toNat (hmacSha1 k0 (s.msg ++ m)) ++ List.drop t.toNat r) := by
          simp [srtp_hmac_compute, SHA1_DIGEST_SIZE, hguard, HMAC_Update, HMAC_Final, hks, hcmp]
        rw [e]
        refine ⟨fun h => absurd rfl h, fun k hk _ => ?_⟩
        obtain rfl : k0 = k := Option.some.inj hk
        exact ⟨rfl, List.drop_left' hlen⟩

theorem compute_frame_witness :
    (srtp_hmac_compute ⟨some [3], [5]⟩ [1] 2 [9, 9, 9]).2.2 =
      List.take (Int.toNat 2) (hmacSha1 [3] ([5] ++ [1])) ++ List.drop (Int.toNat 2) [9, 9, 9] ∧
    (srtp_hmac_compute ⟨none, []⟩ [] 21 [4]).2.2 = [4] :=
  ⟨((compute_frame ⟨some [3], [5]⟩ [1] 2 [9, 9, 9]).2 [3] rfl (by decide)).1,
   (compute_frame ⟨none, []⟩ [] 21 [4]).1 (by decide)⟩
